import Mathlib

set_option maxHeartbeats 1000000

/-!
Shallow embedding of the studio dashboard fragments of the repository:
the session access-token fetch wrapper from
`apps/studio/data/auth/session-access-token-query.ts` and the themed
icon-path builder of the `ConnectionIcon` component.
-/

/--
Embedding of `getSessionAccessToken` from
`apps/studio/data/auth/session-access-token-query.ts`:

```ts
export async function getSessionAccessToken() {
  // ignore if server-side
  if (typeof window === "undefined") return ""
  try {
    return await getAccessToken()
  } catch (e: any) {
    // ignore the error
    return null
  }
}
```

`windowDefined` models whether `typeof window` is defined (browser-like
context).  The behaviour of the external SDK call `getAccessToken` (not part
of the sources of this repository) is an arbitrary parameter: `Except.ok t` models
the promise resolving with token `t`, `Except.error e` models it rejecting
with an arbitrary error `e` of an arbitrary error type `ε`.

The result is a pair: the outcome of the wrapped call (`Except.ok v` models
resolving with value `v`, where `some s` is a string result and `none` is the
JavaScript `null`; `Except.error` would model a rejection), together with the
number of times the underlying `getAccessToken` call was awaited.
-/
def getSessionAccessToken {ε : Type} (windowDefined : Bool)
    (getAccessToken : Except ε String) : Except ε (Option String) × Nat :=
  if windowDefined = false then
    (Except.ok (some ""), 0)
  else
    match getAccessToken with
    | Except.ok tok => (Except.ok (some tok), 1)
    | Except.error _ => (Except.ok none, 1)

/--
Charwise lowercasing: the embedding of the JavaScript
`connection.toLowerCase()` call in `ConnectionIcon`, mapping each character
to its lowercase form.
-/
def toLowerCase (s : String) : String :=
  ⟨s.data.map Char.toLower⟩

/--
Embedding of the JavaScript `String.prototype.includes` test used by
`ConnectionIcon`: `includes s pat` holds when `pat` occurs contiguously
inside `s`.
-/
def includes (s pat : String) : Prop :=
  pat.data <:+: s.data

instance (s pat : String) : Decidable (includes s pat) :=
  inferInstanceAs (Decidable (pat.data <:+: s.data))

/--
Embedding of the optional-chaining test `resolvedTheme?.includes("dark")` in
`ConnectionIcon`: when no theme is resolved the expression is `undefined`,
which is falsy, so the dark branch is not taken.
-/
def themeHasDark (resolvedTheme : Option String) : Prop :=
  match resolvedTheme with
  | some t => includes t "dark"
  | none => False

instance (rt : Option String) : Decidable (themeHasDark rt) :=
  match rt with
  | some t => inferInstanceAs (Decidable (includes t "dark"))
  | none => inferInstanceAs (Decidable False)

/--
Embedding of the `src` attribute built by the `ConnectionIcon` component:

```ts
src={`${BASE_PATH}/img/libraries/${connection.toLowerCase()}${
  ["expo", "nextjs"].includes(connection.toLowerCase())
    ? resolvedTheme?.includes("dark")
      ? "-dark"
      : ""
    : ""
}-icon.svg`}
```

`BASE_PATH` (imported from `lib/constants`, outside these sources) is kept
as an abstract parameter.
-/
def connectionIconSrc (BASE_PATH connection : String)
    (resolvedTheme : Option String) : String :=
  BASE_PATH ++ "/img/libraries/" ++ toLowerCase connection ++
    (if toLowerCase connection ∈ (["expo", "nextjs"] : List String) then
      (if themeHasDark resolvedTheme then "-dark" else "")
    else "") ++ "-icon.svg"

/-! ### Helper lemmas -/

theorem char_ofNat_toNat_valid (n : Nat) (h : n.isValidChar) :
    (Char.ofNat n).toNat = n := by
  unfold Char.ofNat
  rw [dif_pos h]
  unfold Char.ofNatAux
  simp [Char.toNat, UInt32.toNat, BitVec.toNat_ofNatLt]

theorem char_toLower_toLower (c : Char) : c.toLower.toLower = c.toLower := by
  unfold Char.toLower
  by_cases h : c.toNat ≥ 65 ∧ c.toNat ≤ 90
  · rw [if_pos h]
    have hv : (c.toNat + 32).isValidChar := Or.inl (by omega)
    have ht : (Char.ofNat (c.toNat + 32)).toNat = c.toNat + 32 :=
      char_ofNat_toNat_valid _ hv
    rw [ht, if_neg (by omega)]
  · rw [if_neg h, if_neg h]

theorem toLowerCase_idem (s : String) :
    toLowerCase (toLowerCase s) = toLowerCase s := by
  unfold toLowerCase
  have hcomp : Char.toLower ∘ Char.toLower = Char.toLower :=
    funext char_toLower_toLower
  simp [List.map_map, hcomp]

theorem starts_split {α : Type} :
    ∀ (a p b : List α), p <+: a ++ b → p <+: a ∨ ∃ p₂, p = a ++ p₂ ∧ p₂ <+: b := by
  intro a
  induction a with
  | nil =>
    intro p b h
    exact Or.inr ⟨p, rfl, h⟩
  | cons c a ih =>
    intro p b h
    cases p with
    | nil => exact Or.inl List.nil_prefix
    | cons c' p' =>
      rw [List.cons_append] at h
      obtain ⟨rfl, h'⟩ := List.cons_prefix_cons.mp h
      rcases ih p' b h' with h1 | ⟨p₂, rfl, h2⟩
      · exact Or.inl (List.cons_prefix_cons.mpr ⟨rfl, h1⟩)
      · exact Or.inr ⟨p₂, by simp, h2⟩

theorem sub_split {α : Type} :
    ∀ (a p b : List α), p <:+: a ++ b →
      p <:+: a ∨ p <:+: b ∨
        ∃ p₁ p₂, p₁ ++ p₂ = p ∧ p₁ ≠ [] ∧ p₂ ≠ [] ∧ p₁ <:+ a ∧ p₂ <+: b := by
  intro a
  induction a with
  | nil =>
    intro p b h
    exact Or.inr (Or.inl h)
  | cons c a ih =>
    intro p b h
    rw [List.cons_append] at h
    rcases List.infix_cons_iff.mp h with hp | hs
    · rw [← List.cons_append] at hp
      rcases starts_split (c :: a) p b hp with h1 | ⟨p₂, rfl, h2⟩
      · exact Or.inl h1.isInfix
      · cases p₂ with
        | nil => exact Or.inl (by simp [ List.infix_refl])
        | cons d p₂' =>
          exact Or.inr (Or.inr ⟨c :: a, d :: p₂', rfl, by simp, by simp,
            List.suffix_refl _, h2⟩)
    · rcases ih p b hs with h1 | h2 | ⟨p₁, p₂, heq, hn1, hn2, hsf, hpf⟩
      · exact Or.inl (h1.trans (List.suffix_cons c a).isInfix)
      · exact Or.inr (Or.inl h2)
      · exact Or.inr (Or.inr ⟨p₁, p₂, heq, hn1, hn2,
          hsf.trans (List.suffix_cons c a), hpf⟩)

theorem not_sub_concat {p a b : List Char} (ha : ¬ p <:+: a) (hb : ¬ p <:+: b)
    (hs : ∀ x ∈ p.tails, x ≠ [] → ¬ x <+: b) : ¬ p <:+: a ++ b := by
  intro h
  rcases sub_split a p b h with h1 | h2 | ⟨p₁, p₂, heq, _, hn2, _, hpf⟩
  · exact ha h1
  · exact hb h2
  · exact hs p₂ ((List.mem_tails p₂ p).mpr ⟨p₁, heq⟩) hn2 hpf

theorem getLast_of_suffix {α : Type} {l₁ l₂ : List α} (h : l₁ <:+ l₂)
    (hne : l₁ ≠ []) : l₂.getLast? = l₁.getLast? := by
  obtain ⟨u, rfl⟩ := h
  exact List.getLast?_append_of_ne_nil u hne

theorem dark_not_in_light (base lower : List Char)
    (hbase : ¬ "-dark".data <:+: base) (hlower : ¬ "-dark".data <:+: lower) :
    ¬ "-dark".data <:+:
      (base ++ "/img/libraries/".data ++ lower ++ "-icon.svg".data) := by
  intro h
  rw [List.append_assoc (base ++ "/img/libraries/".data)] at h
  rcases sub_split (base ++ "/img/libraries/".data) "-dark".data
      (lower ++ "-icon.svg".data) h with h1 | h2 | ⟨p₁, p₂, heq, hn1, hn2, hsf, hpf⟩
  · exact not_sub_concat hbase (by decide) (by decide) h1
  · exact not_sub_concat hlower (by decide) (by decide) h2
  · have hlast : (base ++ "/img/libraries/".data).getLast? = p₁.getLast? :=
      getLast_of_suffix hsf hn1
    rw [List.getLast?_append_of_ne_nil base (by decide)] at hlast
    have hmem : p₁ ∈ ("-dark".data).inits :=
      (List.mem_inits p₁ "-dark".data).mpr ⟨p₂, heq⟩
    have hno : ∀ x ∈ ("-dark".data).inits, x.getLast? ≠ some '/' := by decide
    exact hno p₁ hmem (by rw [← hlast]; decide)

/-! ### Claim theorems -/

/-- C1: whenever the underlying `getAccessToken` call throws (any error `e`
of any error type `ε`), `getSessionAccessToken` in a browser-like context
resolves to `null` (modelled as `none`) rather than rejecting, and the result
is the same `null` whatever the error was (the right-hand side does not
depend on `e`). -/
theorem getSessionAccessToken_error_null {ε : Type} (e : ε) :
    getSessionAccessToken true (Except.error e) = (Except.ok none, 1) := rfl

/-- C2: outside a browser-like context (window undefined),
`getSessionAccessToken` resolves to the empty string and the underlying
`getAccessToken` call is invoked zero times, whatever its behaviour would
have been. -/
theorem getSessionAccessToken_server_empty {ε : Type}
    (getAccessToken : Except ε String) :
    getSessionAccessToken false getAccessToken = (Except.ok (some ""), 0) := rfl

/-- C6: for every execution context and every behaviour of the underlying
call (resolving with any value or rejecting with any error),
`getSessionAccessToken` resolves with some value and never rejects. -/
theorem getSessionAccessToken_never_rejects {ε : Type} (windowDefined : Bool)
    (getAccessToken : Except ε String) :
    ∃ v : Option String,
      (getSessionAccessToken windowDefined getAccessToken).1 = Except.ok v := by
  cases windowDefined with
  | false => exact ⟨some "", rfl⟩
  | true =>
    cases getAccessToken with
    | ok tok => exact ⟨some tok, rfl⟩
    | error e => exact ⟨none, rfl⟩

/-- C7: the underlying asynchronous fetch is awaited exactly once per
invocation when window is defined and zero times otherwise; in particular it
is awaited at most once. -/
theorem getSessionAccessToken_fetch_once {ε : Type} (windowDefined : Bool)
    (getAccessToken : Except ε String) :
    (getSessionAccessToken windowDefined getAccessToken).2 =
        (if windowDefined then 1 else 0) ∧
      (getSessionAccessToken windowDefined getAccessToken).2 ≤ 1 := by
  cases windowDefined <;> cases getAccessToken <;>
    simp [getSessionAccessToken]

/-- C3: for a connection identifier whose lowercase form is one of the
special-cased identifiers `expo` and `nextjs`, and any resolved theme value
`t`, the built asset path contains the `-dark` marker iff `t` contains
`dark`.  The abstract `BASE_PATH` is assumed not to contain `-dark` itself,
so that containment in the path is decided by the suffix the component
appends. -/
theorem connectionIcon_dark_suffix_iff (base c t : String)
    (hc : toLowerCase c ∈ (["expo", "nextjs"] : List String))
    (hbase : ¬ includes base "-dark") :
    (includes (connectionIconSrc base c (some t)) "-dark" ↔
      includes t "dark") := by
  have hc' : toLowerCase c = "expo" ∨ toLowerCase c = "nextjs" := by
    simpa using hc
  unfold connectionIconSrc
  rw [if_pos hc]
  by_cases hd : themeHasDark (some t)
  · rw [if_pos hd]
    refine iff_of_true ?_ hd
    show "-dark".data <:+: _
    simp only [String.data_append, List.append_assoc]
    refine List.IsInfix.trans ?_ (List.suffix_append base.data _).isInfix
    rcases hc' with h | h <;> rw [h] <;> decide
  · rw [if_neg hd]
    refine iff_of_false ?_ hd
    intro hpath
    have hpath' : "-dark".data <:+:
        (base ++ "/img/libraries/" ++ toLowerCase c ++ "" ++ "-icon.svg").data :=
      hpath
    rw [String.append_empty] at hpath'
    simp only [String.data_append] at hpath'
    rcases hc' with h | h <;> rw [h] at hpath'
    · exact dark_not_in_light base.data "expo".data hbase (by decide) hpath'
    · exact dark_not_in_light base.data "nextjs".data hbase (by decide) hpath'

/-- Witness for C3 at concrete inputs. -/
theorem connectionIcon_dark_suffix_iff_witness :
    (includes (connectionIconSrc "" "Expo" (some "dark")) "-dark" ↔
      includes "dark" "dark") :=
  connectionIcon_dark_suffix_iff "" "Expo" "dark" (by decide) (by decide)

/-- C4 counterexample: the identifier `x-dark` is not special-cased, yet the
asset path built for it does contain `-dark` (carried by the identifier
itself), so the claim as stated is false. -/
theorem connectionIcon_nonSpecial_dark_cex :
    toLowerCase "x-dark" ∉ (["expo", "nextjs"] : List String) ∧
      includes (connectionIconSrc "" "x-dark" (some "light")) "-dark" := by
  decide

/-- C4 (amended): for every theme value and every connection identifier whose
lowercase form is not special-cased and does not itself contain `-dark`
(and with the abstract `BASE_PATH` not containing `-dark`), the built asset
path never contains `-dark`: no theme suffix is appended. -/
theorem connectionIcon_nonSpecial_no_dark (base c : String) (rt : Option String)
    (hc : toLowerCase c ∉ (["expo", "nextjs"] : List String))
    (hbase : ¬ includes base "-dark")
    (hconn : ¬ includes (toLowerCase c) "-dark") :
    ¬ includes (connectionIconSrc base c rt) "-dark" := by
  unfold connectionIconSrc
  rw [if_neg hc]
  intro hpath
  have hpath' : "-dark".data <:+:
      (base ++ "/img/libraries/" ++ toLowerCase c ++ "" ++ "-icon.svg").data :=
    hpath
  rw [String.append_empty] at hpath'
  simp only [String.data_append] at hpath'
  exact dark_not_in_light base.data (toLowerCase c).data hbase hconn hpath'

/-- Witness for the amended C4 at concrete inputs. -/
theorem connectionIcon_nonSpecial_no_dark_witness :
    ¬ includes (connectionIconSrc "" "Postgres" (some "dark")) "-dark" :=
  connectionIcon_nonSpecial_no_dark "" "Postgres" (some "dark") (by decide)
    (by decide) (by decide)

/-- C5: with identifier `nextjs` and a resolved theme containing `dark`, the
path is `{base}/img/libraries/nextjs-dark-icon.svg`; with identifier
`postgres` and any resolved theme (including none), the path is
`{base}/img/libraries/postgres-icon.svg`. -/
theorem connectionIcon_nextjs_postgres_paths (base : String) :
    (∀ t : String, includes t "dark" →
      connectionIconSrc base "nextjs" (some t) =
        base ++ "/img/libraries/nextjs-dark-icon.svg") ∧
    ∀ rt : Option String,
      connectionIconSrc base "postgres" rt =
        base ++ "/img/libraries/postgres-icon.svg" := by
  constructor
  · intro t ht
    unfold connectionIconSrc
    have hmem : toLowerCase "nextjs" ∈ (["expo", "nextjs"] : List String) := by
      decide
    rw [if_pos hmem, if_pos (show themeHasDark (some t) from ht)]
    simp only [String.append_assoc]
    congr 1
  · intro rt
    unfold connectionIconSrc
    have hmem : toLowerCase "postgres" ∉ (["expo", "nextjs"] : List String) := by
      decide
    rw [if_neg hmem, String.append_empty]
    simp only [String.append_assoc]
    congr 1

/-- Witness for C5 at concrete inputs. -/
theorem connectionIcon_nextjs_postgres_paths_witness :
    connectionIconSrc "" "nextjs" (some "dark") =
        "/img/libraries/nextjs-dark-icon.svg" ∧
      connectionIconSrc "" "postgres" (some "light") =
        "/img/libraries/postgres-icon.svg" := by
  constructor
  · have h := (connectionIcon_nextjs_postgres_paths "").1 "dark" (by decide)
    simpa using h
  · have h := (connectionIcon_nextjs_postgres_paths "").2 (some "light")
    simpa using h

/-- C8: the icon path is a deterministic function of the connection
identifier and the resolved theme: equal identifiers and equal resolved
themes yield equal asset paths. -/
theorem connectionIcon_deterministic (base c₁ c₂ : String)
    (rt₁ rt₂ : Option String) (hc : c₁ = c₂) (hrt : rt₁ = rt₂) :
    connectionIconSrc base c₁ rt₁ = connectionIconSrc base c₂ rt₂ := by
  rw [hc, hrt]

/-- Witness for C8 at concrete inputs. -/
theorem connectionIcon_deterministic_witness :
    connectionIconSrc "" "expo" (some "dark") =
      connectionIconSrc "" "expo" (some "dark") :=
  connectionIcon_deterministic "" "expo" "expo" (some "dark") (some "dark")
    rfl rfl

/-- C9: the path is invariant under lowercasing the connection identifier,
and the identifier embedded in the path is its lowercase form: the path is
always `{base}/img/libraries/{lowercase identifier}{sfx}-icon.svg` with
`sfx` either empty or `-dark`. -/
theorem connectionIcon_lowercase_invariant (base c : String)
    (rt : Option String) :
    connectionIconSrc base c rt = connectionIconSrc base (toLowerCase c) rt ∧
    ∃ sfx : String, (sfx = "" ∨ sfx = "-dark") ∧
      connectionIconSrc base c rt =
        base ++ "/img/libraries/" ++ toLowerCase c ++ sfx ++ "-icon.svg" := by
  constructor
  · show _ = connectionIconSrc base (toLowerCase c) rt
    unfold connectionIconSrc
    rw [toLowerCase_idem]
  · refine ⟨if toLowerCase c ∈ (["expo", "nextjs"] : List String) then
        (if themeHasDark rt then "-dark" else "") else "", ?_, rfl⟩
    split_ifs <;> simp

/-- C10: when no theme is resolved, the light-mode path is produced for
every connection identifier, special-cased ones included: the `-dark`
suffix is never appended. -/
theorem connectionIcon_no_theme_light (base c : String) :
    connectionIconSrc base c none =
      base ++ "/img/libraries/" ++ toLowerCase c ++ "-icon.svg" := by
  unfold connectionIconSrc
  have h : (if themeHasDark none then "-dark" else "") = "" := rfl
  rw [h]
  split_ifs <;> rw [String.append_empty]
